import Mathlib

/-!
Shallow embedding of `consolidate.py`: an intercompany-reconciliation and
consolidation pipeline over a ledger of transactions.

Modelling choices:
* A pandas DataFrame row becomes a `Transaction` record; the derived
  `Is_Internal` column becomes the extra field of `TaggedTransaction`.
* Amounts are rationals (`ℚ`), with the tolerance `1e-2` embedded as `1/100`.
* Python compares strings by code point; `lexLt` reimplements that order on
  `List Char` structurally so that the kernel can evaluate it.
* `sorted([a, b])` on two strings becomes `entityPairKey`; pandas
  `groupby(...).sum().unstack(fill_value=0)` becomes per-key filtered sums,
  with group keys deduplicated and sorted as pandas does.
* The final column selection
  `mismatches[['EntityPair', 'Revenue', 'Expense', 'Net_Internal']]` raises a
  `KeyError` when the `Revenue` or `Expense` column is absent (i.e. when no
  internal transaction of that account type exists), so
  `check_internal_mismatches` returns `Except`.
-/

namespace Consolidate

/-- Lexicographic strict order on code points, as Python compares strings. -/
def lexLt : List Char → List Char → Bool
  | [], [] => false
  | [], _ :: _ => true
  | _ :: _, [] => false
  | a :: as, b :: bs => if a < b then true else if b < a then false else lexLt as bs

/-- Python's `<` on strings. -/
def strLt (a b : String) : Bool := lexLt a.data b.data

/-- One ledger row: columns `Company`, `Counterparty`, `AccountType`, `Amount`. -/
structure Transaction where
  company : String
  counterparty : String
  accountType : String
  amount : ℚ
deriving DecidableEq

/-- A ledger row after the Tagger added the derived `Is_Internal` column. -/
structure TaggedTransaction extends Transaction where
  isInternal : Bool
deriving DecidableEq

/-- `tag_internal_transactions`: `Is_Internal` is true iff both `Company` and
`Counterparty` are members of `group_companies`. -/
def tag_internal_transactions (df : List Transaction) (group_companies : List String) :
    List TaggedTransaction :=
  df.map fun t =>
    ⟨t, decide (t.company ∈ group_companies) && decide (t.counterparty ∈ group_companies)⟩

/-- `'|'.join(sorted([a, b]))`: the direction-independent pair key. -/
def entityPairKey (a b : String) : String :=
  if strLt b a then b ++ "|" ++ a else a ++ "|" ++ b

/-- The `EntityPair` column value of one row. -/
def rowKey (t : TaggedTransaction) : String := entityPairKey t.company t.counterparty

/-- `df[df['Is_Internal']]`: the internal rows. -/
def internal_df (df : List TaggedTransaction) : List TaggedTransaction :=
  df.filter (·.isInternal)

/-- The account types occurring among rows: after `unstack`, exactly these are
the value columns of `summary`. -/
def acctColumns (rows : List TaggedTransaction) : List String :=
  rows.map (·.accountType)

/-- The summed `Amount` of the rows with `EntityPair = p` and `AccountType = ty`
(the `(p, ty)` cell of the pivoted `summary`, with `fill_value=0`). -/
def typeSum (rows : List TaggedTransaction) (p ty : String) : ℚ :=
  ((rows.filter (fun t => rowKey t == p && t.accountType == ty)).map (·.amount)).sum

/-- `Net_Internal = summary.get('Revenue', 0) + summary.get('Expense', 0)`. -/
def netInternal (rows : List TaggedTransaction) (p : String) : ℚ :=
  typeSum rows p "Revenue" + typeSum rows p "Expense"

/-- Absolute value as pandas `.abs()`. -/
def ratAbs (x : ℚ) : ℚ := if x < 0 then -x else x

/-- The tolerance `1e-2` of `check_internal_mismatches`. -/
def tolerance : ℚ := 1 / 100

/-- Unique group keys (pandas groups each key once). -/
def dedupKeys : List String → List String
  | [] => []
  | x :: xs => if x ∈ dedupKeys xs then dedupKeys xs else x :: dedupKeys xs

/-- Insert into a list sorted by `strLt`'s reflexive closure. -/
def insertKey (x : String) : List String → List String
  | [] => [x]
  | y :: ys => if strLt y x then y :: insertKey x ys else x :: y :: ys

/-- Sort keys lexicographically (pandas `groupby` sorts group keys). -/
def sortKeys : List String → List String
  | [] => []
  | x :: xs => insertKey x (sortKeys xs)

/-- The row index of `summary`: the sorted distinct `EntityPair` keys. -/
def entityPairs (rows : List TaggedTransaction) : List String :=
  sortKeys (dedupKeys (rows.map rowKey))

/-- One row of the returned `mismatches` frame:
`['EntityPair', 'Revenue', 'Expense', 'Net_Internal']`. -/
structure MismatchRecord where
  entityPair : String
  revenue : ℚ
  expense : ℚ
  netInternal : ℚ
deriving DecidableEq

/-- The `summary` row for pair `p`, restricted to the four reported columns. -/
def mismatchRecordFor (rows : List TaggedTransaction) (p : String) : MismatchRecord :=
  ⟨p, typeSum rows p "Revenue", typeSum rows p "Expense", netInternal rows p⟩

/-- `check_internal_mismatches`: filter to internal rows, pivot sums by
`(EntityPair, AccountType)`, keep pairs with `|Net_Internal| > 1e-2`.
The final selection `mismatches[['EntityPair', 'Revenue', 'Expense',
'Net_Internal']]` raises `KeyError` when `Revenue` or `Expense` is not among
the pivoted columns, i.e. when the internal rows contain no transaction of
that account type. -/
def check_internal_mismatches (df : List TaggedTransaction) :
    Except String (List MismatchRecord) :=
  if "Revenue" ∈ acctColumns (internal_df df) ∧ "Expense" ∈ acctColumns (internal_df df) then
    .ok (((entityPairs (internal_df df)).filter
      (fun p => decide (tolerance < ratAbs (netInternal (internal_df df) p)))).map
      (mismatchRecordFor (internal_df df)))
  else
    .error "KeyError: columns Revenue, Expense not in index"

/-- `compute_consolidated`: totals over the external (non-internal) rows. -/
def compute_consolidated (df : List TaggedTransaction) : ℚ × ℚ × ℚ :=
  let external_df := df.filter (fun t => !t.isInternal)
  let revenue := ((external_df.filter (fun t => t.accountType == "Revenue")).map (·.amount)).sum
  let expense := ((external_df.filter (fun t => t.accountType == "Expense")).map (·.amount)).sum
  (revenue, expense, revenue + expense)

/-- `required_columns = {'Company', 'Counterparty', 'AccountType', 'Amount'}`. -/
def required_columns : List String := ["Company", "Counterparty", "AccountType", "Amount"]

/-- The observable outcome of one run of `main` (after loading succeeded). -/
inductive RunOutcome where
  | missingColumns (missing : List String)
  | uncaughtError (msg : String)
  | aborted (mismatches : List MismatchRecord)
  | consolidated (revenue expense profit : ℚ)
deriving DecidableEq

/-- `main` after `load_data` succeeded: `columns` are the CSV's column names,
`df` its parsed rows (meaningful when the required columns are present). -/
def main (columns : List String) (df : List Transaction) (group_companies : List String) :
    RunOutcome :=
  if (required_columns.filter (fun c => !(columns.contains c))).isEmpty then
    match check_internal_mismatches (tag_internal_transactions df group_companies) with
    | .error e => .uncaughtError e
    | .ok mismatches =>
      if !mismatches.isEmpty then
        .aborted mismatches
      else
        .consolidated (compute_consolidated (tag_internal_transactions df group_companies)).1
          (compute_consolidated (tag_internal_transactions df group_companies)).2.1
          (compute_consolidated (tag_internal_transactions df group_companies)).2.2
  else
    .missingColumns (required_columns.filter (fun c => !(columns.contains c)))

/-! ### Order lemmas for the pair key -/

theorem lexLt_asymm (x : List Char) : ∀ y, lexLt x y = true → lexLt y x = false := by
  induction x with
  | nil =>
    intro y h
    cases y with
    | nil => simp [lexLt] at h
    | cons b bs => simp [lexLt]
  | cons a as ih =>
    intro y h
    cases y with
    | nil => simp [lexLt] at h
    | cons b bs =>
      simp only [lexLt] at h ⊢
      rcases lt_trichotomy a b with hab | hab | hab
      · rw [if_neg (lt_asymm hab), if_pos hab]
      · subst hab
        rw [if_neg (lt_irrefl a), if_neg (lt_irrefl a)] at h ⊢
        exact ih bs h
      · rw [if_neg (lt_asymm hab), if_pos hab] at h
        cases h

theorem eq_of_lexLt_false (x : List Char) :
    ∀ y, lexLt x y = false → lexLt y x = false → x = y := by
  induction x with
  | nil =>
    intro y h1 _
    cases y with
    | nil => rfl
    | cons b bs => simp [lexLt] at h1
  | cons a as ih =>
    intro y h1 h2
    cases y with
    | nil => simp [lexLt] at h2
    | cons b bs =>
      simp only [lexLt] at h1 h2
      rcases lt_trichotomy a b with hab | hab | hab
      · rw [if_pos hab] at h1; cases h1
      · subst hab
        rw [if_neg (lt_irrefl a), if_neg (lt_irrefl a)] at h1 h2
        exact congrArg (a :: ·) (ih bs h1 h2)
      · rw [if_pos hab] at h2; cases h2

theorem strLt_asymm (a b : String) (h : strLt a b = true) : strLt b a = false :=
  lexLt_asymm a.data b.data h

theorem eq_of_strLt_false (a b : String) (h1 : strLt a b = false) (h2 : strLt b a = false) :
    a = b := by
  have hd := eq_of_lexLt_false a.data b.data h1 h2
  cases a
  cases b
  exact congrArg String.mk hd

theorem entityPairKey_comm (a b : String) : entityPairKey a b = entityPairKey b a := by
  unfold entityPairKey
  cases hab : strLt a b <;> cases hba : strLt b a <;> simp [hab, hba]
  · rw [eq_of_strLt_false a b hab hba]
  · rw [strLt_asymm a b hab] at hba
    cases hba

/-! ### Claim theorems -/

/-- C1 (Tagging correctness): for every transaction in the Tagger's output,
`isInternal` is `true` iff both `company` and `counterparty` are members of the
group-membership set; it is `false` whenever at least one party is a
non-member. -/
theorem tagging_correct (df : List Transaction) (group_companies : List String)
    (t : TaggedTransaction) (ht : t ∈ tag_internal_transactions df group_companies) :
    t.isInternal = true ↔ (t.company ∈ group_companies ∧ t.counterparty ∈ group_companies) := by
  simp only [tag_internal_transactions, List.mem_map] at ht
  rcases ht with ⟨s, _, rfl⟩
  simp [Bool.and_eq_true, decide_eq_true_iff]

/-- Witness for C1 at a concrete transaction and group. -/
theorem tagging_correct_witness :
    ((⟨⟨"A", "B", "Revenue", 100⟩, true⟩ : TaggedTransaction).isInternal = true ↔
      ("A" ∈ ["A", "B"] ∧ "B" ∈ ["A", "B"])) :=
  tagging_correct [⟨"A", "B", "Revenue", 100⟩] ["A", "B"] ⟨⟨"A", "B", "Revenue", 100⟩, true⟩
    (by simp +decide [tag_internal_transactions])

/-- C3 (Pair symmetry): the normalized pair key of a transaction recorded as
`(A, B)` equals the key of one recorded as `(B, A)`, for any account types,
amounts and tags — the key is a symmetric function of the two parties. -/
theorem pair_symmetry (a b ty1 ty2 : String) (x y : ℚ) (i1 i2 : Bool) :
    rowKey ⟨⟨a, b, ty1, x⟩, i1⟩ = rowKey ⟨⟨b, a, ty2, y⟩, i2⟩ :=
  entityPairKey_comm a b

/-- Summing the external rows of one account type is the same as summing the
per-row contributions, where internal rows and rows of any other account type
contribute `0`. -/
theorem external_type_sum (ty : String) (l : List TaggedTransaction) :
    (((l.filter (fun t => !t.isInternal)).filter (fun t => t.accountType == ty)).map
        (·.amount)).sum
      = (l.map (fun t => if t.isInternal = false ∧ t.accountType = ty then t.amount
          else 0)).sum := by
  induction l with
  | nil => rfl
  | cons t ts ih =>
    cases h1 : t.isInternal
    · by_cases h2 : t.accountType = ty
      · simp [List.filter_cons, h1, h2, ih, -List.filter_filter]
      · simp [List.filter_cons, h1, h2, ih, -List.filter_filter]
    · simp [List.filter_cons, h1, ih, -List.filter_filter]

/-- C5 (Consolidation correctness): the Consolidation Engine returns
`revenue` = the sum of amounts over transactions with `isInternal = false` and
`accountType = "Revenue"`, `expense` = the same for `"Expense"`, and
`profit = revenue + expense`; internal transactions and transactions of any
other account type contribute `0` to every total. -/
theorem consolidation_correct (df : List TaggedTransaction) :
    (compute_consolidated df).1 =
      (df.map (fun t => if t.isInternal = false ∧ t.accountType = "Revenue" then t.amount
        else 0)).sum ∧
    (compute_consolidated df).2.1 =
      (df.map (fun t => if t.isInternal = false ∧ t.accountType = "Expense" then t.amount
        else 0)).sum ∧
    (compute_consolidated df).2.2 = (compute_consolidated df).1 + (compute_consolidated df).2.1 :=
  ⟨external_type_sum "Revenue" df, external_type_sum "Expense" df, rfl⟩

/-- C8 (Tagger frame property): the Tagger returns exactly the input
transactions, in order, with every original field unchanged — stripping the
added `isInternal` field gives back the input list, and the length is
preserved. -/
theorem tagger_frame (df : List Transaction) (group_companies : List String) :
    (tag_internal_transactions df group_companies).map (·.toTransaction) = df ∧
    (tag_internal_transactions df group_companies).length = df.length := by
  refine ⟨?_, by simp [tag_internal_transactions]⟩
  induction df with
  | nil => rfl
  | cons t ts ih => simpa [tag_internal_transactions] using ih

/-! ### Membership lemmas for the pair index -/

theorem mem_insertKey (x a : String) (l : List String) :
    a ∈ insertKey x l ↔ a = x ∨ a ∈ l := by
  induction l with
  | nil => simp [insertKey]
  | cons y ys ih =>
    simp only [insertKey]
    split
    · simp only [List.mem_cons, ih]
      tauto
    · simp only [List.mem_cons]

theorem mem_sortKeys (a : String) (l : List String) : a ∈ sortKeys l ↔ a ∈ l := by
  induction l with
  | nil => simp [sortKeys]
  | cons x xs ih => simp [sortKeys, mem_insertKey, ih]

theorem mem_dedupKeys (a : String) (l : List String) : a ∈ dedupKeys l ↔ a ∈ l := by
  induction l with
  | nil => simp [dedupKeys]
  | cons x xs ih =>
    by_cases hx : x ∈ dedupKeys xs
    · simp only [dedupKeys, if_pos hx]
      constructor
      · exact fun h => List.mem_cons_of_mem x (ih.mp h)
      · intro h
        rcases List.mem_cons.mp h with rfl | h
        · exact hx
        · exact ih.mpr h
    · simp only [dedupKeys, if_neg hx]
      simp [ih]

theorem mem_entityPairs (rows : List TaggedTransaction) (p : String) :
    p ∈ entityPairs rows ↔ ∃ t ∈ rows, rowKey t = p := by
  simp [entityPairs, mem_sortKeys, mem_dedupKeys]

theorem typeSum_eq_zero (rows : List TaggedTransaction) (p ty : String)
    (h : ∀ t ∈ rows, rowKey t ≠ p) : typeSum rows p ty = 0 := by
  have hnil : rows.filter (fun t => rowKey t == p && t.accountType == ty) = [] := by
    rw [List.filter_eq_nil_iff]
    intro t ht
    simp [h t ht]
  simp [typeSum, hnil]

theorem netInternal_eq_zero (rows : List TaggedTransaction) (p : String)
    (h : ∀ t ∈ rows, rowKey t ≠ p) : netInternal rows p = 0 := by
  simp [netInternal, typeSum_eq_zero rows p _ h]

/-! ### Concrete evaluations of the Mismatch Detector -/

theorem check_eval_tol009 :
    check_internal_mismatches (tag_internal_transactions
      [⟨"A", "B", "Revenue", 100⟩, ⟨"B", "A", "Expense", -100 - 9/1000⟩] ["A", "B"]) =
      .ok [] := by
  norm_num +decide [check_internal_mismatches, internal_df, acctColumns, entityPairs,
    sortKeys, insertKey, dedupKeys, typeSum, netInternal, tolerance, ratAbs,
    mismatchRecordFor, rowKey, entityPairKey, strLt, lexLt, tag_internal_transactions,
    List.filter_cons]

theorem check_eval_tol011 :
    check_internal_mismatches (tag_internal_transactions
      [⟨"A", "B", "Revenue", 100⟩, ⟨"B", "A", "Expense", -100 - 11/1000⟩] ["A", "B"]) =
      .ok [⟨"A|B", 100, -100 - 11/1000, -(11/1000)⟩] := by
  norm_num +decide [check_internal_mismatches, internal_df, acctColumns, entityPairs,
    sortKeys, insertKey, dedupKeys, typeSum, netInternal, tolerance, ratAbs,
    mismatchRecordFor, rowKey, entityPairKey, strLt, lexLt, tag_internal_transactions,
    List.filter_cons]

theorem check_eval_mm :
    check_internal_mismatches (tag_internal_transactions
      [⟨"A", "B", "Revenue", 100⟩, ⟨"B", "A", "Expense", -90⟩] ["A", "B"]) =
      .ok [⟨"A|B", 100, -90, 10⟩] := by
  norm_num +decide [check_internal_mismatches, internal_df, acctColumns, entityPairs,
    sortKeys, insertKey, dedupKeys, typeSum, netInternal, tolerance, ratAbs,
    mismatchRecordFor, rowKey, entityPairKey, strLt, lexLt, tag_internal_transactions,
    List.filter_cons]

/-- C2 (Mismatch criterion): whenever the Mismatch Detector returns a result,
a pair key is reported iff the absolute value of its net internal balance
(internal Revenue sum + internal Expense sum) exceeds the tolerance `1/100`;
in particular, internal legs netting to `-0.009` are not reported, legs netting
to `-0.011` are reported, and internal legs Revenue `+100` / Expense `-90`
yield exactly one MismatchRecord with net `10`. -/
theorem mismatch_criterion :
    (∀ (df : List TaggedTransaction) (res : List MismatchRecord) (p : String),
        check_internal_mismatches df = .ok res →
        (p ∈ res.map MismatchRecord.entityPair ↔
          tolerance < ratAbs (netInternal (internal_df df) p)))
      ∧ check_internal_mismatches (tag_internal_transactions
          [⟨"A", "B", "Revenue", 100⟩, ⟨"B", "A", "Expense", -100 - 9/1000⟩] ["A", "B"]) =
          .ok []
      ∧ check_internal_mismatches (tag_internal_transactions
          [⟨"A", "B", "Revenue", 100⟩, ⟨"B", "A", "Expense", -100 - 11/1000⟩] ["A", "B"]) =
          .ok [⟨"A|B", 100, -100 - 11/1000, -(11/1000)⟩]
      ∧ check_internal_mismatches (tag_internal_transactions
          [⟨"A", "B", "Revenue", 100⟩, ⟨"B", "A", "Expense", -90⟩] ["A", "B"]) =
          .ok [⟨"A|B", 100, -90, 10⟩] := by
  refine ⟨?_, check_eval_tol009, check_eval_tol011, check_eval_mm⟩
  intro df res p hck
  rw [check_internal_mismatches] at hck
  split_ifs at hck with hcols
  · simp only [Except.ok.injEq] at hck
    subst hck
    simp only [List.map_map, List.mem_map, Function.comp, List.mem_filter]
    constructor
    · rintro ⟨q, ⟨_, hpred⟩, hqp⟩
      have hq : (mismatchRecordFor (internal_df df) q).entityPair = q := rfl
      rw [hq] at hqp
      subst hqp
      exact of_decide_eq_true hpred
    · intro hlt
      refine ⟨p, ⟨?_, decide_eq_true hlt⟩, rfl⟩
      rw [mem_entityPairs]
      by_contra hno
      push_neg at hno
      rw [netInternal_eq_zero _ _ hno] at hlt
      norm_num [ratAbs, tolerance] at hlt

/-- Witness for C2 at the Revenue `+100` / Expense `-90` input. -/
theorem mismatch_criterion_witness :
    ("A|B" ∈ ([⟨"A|B", 100, -90, 10⟩] : List MismatchRecord).map MismatchRecord.entityPair ↔
      tolerance < ratAbs (netInternal (internal_df (tag_internal_transactions
        [⟨"A", "B", "Revenue", 100⟩, ⟨"B", "A", "Expense", -90⟩] ["A", "B"])) "A|B")) :=
  mismatch_criterion.1 _ _ "A|B" mismatch_criterion.2.2.2

/-- C4 evidence: on a tagged input whose internal transactions have only a
single account type (`Expense`), and on one with no internal transactions at
all, `check_internal_mismatches` raises (the final selection of the `Revenue`
and `Expense` columns fails) instead of completing without error. -/
theorem mismatch_detector_raises :
    check_internal_mismatches (tag_internal_transactions
        [⟨"A", "B", "Expense", -90⟩] ["A", "B"]) =
      .error "KeyError: columns Revenue, Expense not in index"
    ∧ check_internal_mismatches [] =
      .error "KeyError: columns Revenue, Expense not in index" :=
  ⟨by norm_num +decide [check_internal_mismatches, internal_df, acctColumns,
      tag_internal_transactions],
   by norm_num +decide [check_internal_mismatches, internal_df, acctColumns,
      tag_internal_transactions]⟩

/-- C6 (Gate property): in every run, if the Mismatch Detector returns a
non-empty mismatch list, `main` does not produce a consolidated summary; and a
consolidated summary is produced only when the Mismatch Detector returned an
empty list. -/
theorem gate_property (columns : List String) (df : List Transaction) (g : List String) :
    (∀ ms, check_internal_mismatches (tag_internal_transactions df g) = .ok ms → ms ≠ [] →
      ∀ r e p, main columns df g ≠ .consolidated r e p)
    ∧ (∀ r e p, main columns df g = .consolidated r e p →
      check_internal_mismatches (tag_internal_transactions df g) = .ok []) := by
  constructor
  · intro ms h hne r e p hcons
    rw [main] at hcons
    split_ifs at hcons with hmiss
    · rw [h] at hcons
      have hms : ms.isEmpty = false := by
        cases ms with
        | nil => exact absurd rfl hne
        | cons a l => rfl
      simp only [hms, Bool.not_false, if_true] at hcons
      exact RunOutcome.noConfusion hcons
  · intro r e p hcons
    rw [main] at hcons
    split_ifs at hcons with hmiss
    cases hck : check_internal_mismatches (tag_internal_transactions df g) with
    | error msg =>
      rw [hck] at hcons
      exact absurd hcons (by simp)
    | ok ms0 =>
      rw [hck] at hcons
      cases hms : ms0.isEmpty with
      | false =>
        simp only [hms, Bool.not_false, if_true] at hcons
        exact RunOutcome.noConfusion hcons
      | true =>
        rw [List.isEmpty_iff.mp hms]

/-- Witness for C6 at a run whose mismatch list is non-empty. -/
theorem gate_property_witness :
    main required_columns [⟨"A", "B", "Revenue", 100⟩, ⟨"B", "A", "Expense", -90⟩]
      ["A", "B"] ≠ RunOutcome.consolidated 10 0 10 :=
  (gate_property required_columns [⟨"A", "B", "Revenue", 100⟩, ⟨"B", "A", "Expense", -90⟩]
      ["A", "B"]).1 [⟨"A|B", 100, -90, 10⟩] check_eval_mm (by simp) 10 0 10

/-- C7 (End-to-end scenario): for the ledger
`[(A,B,Revenue,100), (B,A,Expense,-100), (A,X,Revenue,50), (A,X,Expense,-20)]`
with group `{A, B}`, the Mismatch Detector reports no mismatches and the run
produces the consolidated summary `revenue = 50`, `expense = -20`,
`profit = 30`. -/
theorem end_to_end :
    check_internal_mismatches (tag_internal_transactions
      [⟨"A", "B", "Revenue", 100⟩, ⟨"B", "A", "Expense", -100⟩,
       ⟨"A", "X", "Revenue", 50⟩, ⟨"A", "X", "Expense", -20⟩] ["A", "B"]) = .ok []
    ∧ main required_columns
      [⟨"A", "B", "Revenue", 100⟩, ⟨"B", "A", "Expense", -100⟩,
       ⟨"A", "X", "Revenue", 50⟩, ⟨"A", "X", "Expense", -20⟩] ["A", "B"] =
      .consolidated 50 (-20) 30 := by
  have hck : check_internal_mismatches (tag_internal_transactions
      [⟨"A", "B", "Revenue", 100⟩, ⟨"B", "A", "Expense", -100⟩,
       ⟨"A", "X", "Revenue", 50⟩, ⟨"A", "X", "Expense", -20⟩] ["A", "B"]) = .ok [] := by
    norm_num +decide [check_internal_mismatches, internal_df, acctColumns, entityPairs,
      sortKeys, insertKey, dedupKeys, typeSum, netInternal, tolerance, ratAbs,
      mismatchRecordFor, rowKey, entityPairKey, strLt, lexLt, tag_internal_transactions,
      List.filter_cons]
  refine ⟨hck, ?_⟩
  rw [main, if_pos (by decide), hck]
  norm_num +decide [compute_consolidated, tag_internal_transactions, List.filter_cons]

/-- C9 (Schema-violation handling): whenever at least one required column is
absent, the run reports exactly the missing column names and ends there — the
outcome is `missingColumns`, so neither tagging, mismatch detection, nor
consolidation contributes to it, and the reported list is non-empty. -/
theorem schema_violation (columns : List String) (df : List Transaction) (g : List String)
    (h : ∃ c ∈ required_columns, c ∉ columns) :
    main columns df g =
      .missingColumns (required_columns.filter (fun c => !(columns.contains c)))
    ∧ required_columns.filter (fun c => !(columns.contains c)) ≠ [] := by
  have hne : required_columns.filter (fun c => !(columns.contains c)) ≠ [] := by
    rcases h with ⟨c, hc, hnc⟩
    intro hnil
    have hmem : c ∈ required_columns.filter (fun c => !(columns.contains c)) := by
      rw [List.mem_filter]
      exact ⟨hc, by simp [hnc]⟩
    rw [hnil] at hmem
    exact List.not_mem_nil c hmem
  refine ⟨?_, hne⟩
  rw [main, if_neg (fun hEmp => hne (List.isEmpty_iff.mp hEmp))]

/-- Witness for C9 at a ledger missing the `Amount` column. -/
theorem schema_violation_witness :
    main ["Company", "Counterparty", "AccountType"] [] [] =
      .missingColumns (required_columns.filter
        (fun c => !(["Company", "Counterparty", "AccountType"].contains c)))
    ∧ required_columns.filter
        (fun c => !(["Company", "Counterparty", "AccountType"].contains c)) ≠ [] :=
  schema_violation ["Company", "Counterparty", "AccountType"] [] []
    ⟨"Amount", by decide, by decide⟩

/-! ### Noninterference of other account types in mismatch detection -/

/-- Two tagged transactions that agree on every field, except that the amount
may differ when the transaction is internal and its account type is neither
`Revenue` nor `Expense`. -/
def AgreeExceptOtherInternal (t1 t2 : TaggedTransaction) : Prop :=
  t1.company = t2.company ∧ t1.counterparty = t2.counterparty ∧
  t1.accountType = t2.accountType ∧ t1.isInternal = t2.isInternal ∧
  (t1.amount = t2.amount ∨
    (t1.isInternal = true ∧ t1.accountType ≠ "Revenue" ∧ t1.accountType ≠ "Expense"))

theorem rel_internal_df (df1 df2 : List TaggedTransaction)
    (h : List.Forall₂ AgreeExceptOtherInternal df1 df2) :
    List.Forall₂ AgreeExceptOtherInternal (internal_df df1) (internal_df df2) := by
  induction h with
  | nil => exact .nil
  | @cons a b l1 l2 hab hl ih =>
    obtain ⟨h1, h2, h3, h4, h5⟩ := hab
    simp only [internal_df, List.filter_cons] at ih ⊢
    cases hi : a.isInternal
    · rw [← h4, hi]
      exact ih
    · rw [← h4, hi]
      exact .cons ⟨h1, h2, h3, h4, h5⟩ ih

theorem rel_acctColumns (l1 l2 : List TaggedTransaction)
    (h : List.Forall₂ AgreeExceptOtherInternal l1 l2) :
    acctColumns l1 = acctColumns l2 := by
  induction h with
  | nil => rfl
  | cons hab hl ih =>
    obtain ⟨-, -, h3, -, -⟩ := hab
    simp only [acctColumns, List.map_cons] at ih ⊢
    rw [h3, ih]

theorem rel_rowKeys (l1 l2 : List TaggedTransaction)
    (h : List.Forall₂ AgreeExceptOtherInternal l1 l2) :
    l1.map rowKey = l2.map rowKey := by
  induction h with
  | nil => rfl
  | cons hab hl ih =>
    obtain ⟨h1, h2, -, -, -⟩ := hab
    simp only [List.map_cons]
    rw [ih]
    congr 1
    simp [rowKey, h1, h2]

theorem typeSum_cons (t : TaggedTransaction) (rows : List TaggedTransaction) (p ty : String) :
    typeSum (t :: rows) p ty =
      (if (rowKey t == p && t.accountType == ty) = true then t.amount else 0)
        + typeSum rows p ty := by
  simp only [typeSum, List.filter_cons]
  split
  · simp
  · simp

theorem rel_typeSum (l1 l2 : List TaggedTransaction)
    (h : List.Forall₂ AgreeExceptOtherInternal l1 l2) (p ty : String)
    (hty : ty = "Revenue" ∨ ty = "Expense") :
    typeSum l1 p ty = typeSum l2 p ty := by
  induction h with
  | nil => rfl
  | @cons a b r1 r2 hab hl ih =>
    obtain ⟨h1, h2, h3, h4, h5⟩ := hab
    rw [typeSum_cons, typeSum_cons, ih]
    congr 1
    have hkey : rowKey a = rowKey b := by simp [rowKey, h1, h2]
    by_cases hc : (rowKey a == p && a.accountType == ty) = true
    · have hc2 : (rowKey b == p && b.accountType == ty) = true := by
        rw [← hkey, ← h3]
        exact hc
      rw [if_pos hc, if_pos hc2]
      rcases h5 with h5 | ⟨-, hR, hE⟩
      · exact h5
      · have haty : a.accountType = ty := by
          have := (Bool.and_eq_true _ _).mp hc
          exact eq_of_beq this.2
        rcases hty with rfl | rfl
        · exact absurd haty hR
        · exact absurd haty hE
    · have hc2 : ¬(rowKey b == p && b.accountType == ty) = true := by
        rw [← hkey, ← h3]
        exact hc
      rw [if_neg hc, if_neg hc2]

/-- C10 (Noninterference): the Mismatch Detector's entire result — the set of
reported pairs, their revenue/expense sums, their nets, and even whether it
errors — is unchanged under any modification of the amounts of internal
transactions whose account type is neither `Revenue` nor `Expense`. -/
theorem mismatch_noninterference (df1 df2 : List TaggedTransaction)
    (h : List.Forall₂ AgreeExceptOtherInternal df1 df2) :
    check_internal_mismatches df1 = check_internal_mismatches df2 := by
  have hrows := rel_internal_df df1 df2 h
  have hcols : acctColumns (internal_df df1) = acctColumns (internal_df df2) :=
    rel_acctColumns _ _ hrows
  have hkeys : (internal_df df1).map rowKey = (internal_df df2).map rowKey :=
    rel_rowKeys _ _ hrows
  have hsumR : ∀ q, typeSum (internal_df df1) q "Revenue" =
      typeSum (internal_df df2) q "Revenue" :=
    fun q => rel_typeSum _ _ hrows q _ (Or.inl rfl)
  have hsumE : ∀ q, typeSum (internal_df df1) q "Expense" =
      typeSum (internal_df df2) q "Expense" :=
    fun q => rel_typeSum _ _ hrows q _ (Or.inr rfl)
  have hnet : ∀ q, netInternal (internal_df df1) q = netInternal (internal_df df2) q := by
    intro q
    simp [netInternal, hsumR q, hsumE q]
  have hpairs : entityPairs (internal_df df1) = entityPairs (internal_df df2) := by
    simp [entityPairs, hkeys]
  rw [check_internal_mismatches, check_internal_mismatches, hcols, hpairs]
  by_cases hmem : "Revenue" ∈ acctColumns (internal_df df2) ∧
      "Expense" ∈ acctColumns (internal_df df2)
  · rw [if_pos hmem, if_pos hmem]
    congr 1
    rw [List.filter_congr (fun q _ => by rw [hnet q])]
    exact List.map_congr_left fun q _ => by
      simp [mismatchRecordFor, hsumR q, hsumE q, hnet q]
  · rw [if_neg hmem, if_neg hmem]

/-- Witness for C10: changing the amount of an internal transaction of another
account type (here `Transfer`) leaves the Mismatch Detector's result
unchanged. -/
theorem mismatch_noninterference_witness :
    check_internal_mismatches
        [⟨⟨"A", "B", "Revenue", 100⟩, true⟩, ⟨⟨"B", "A", "Expense", -90⟩, true⟩,
         ⟨⟨"A", "B", "Transfer", 7⟩, true⟩] =
      check_internal_mismatches
        [⟨⟨"A", "B", "Revenue", 100⟩, true⟩, ⟨⟨"B", "A", "Expense", -90⟩, true⟩,
         ⟨⟨"A", "B", "Transfer", 123456⟩, true⟩] :=
  mismatch_noninterference _ _
    (.cons ⟨rfl, rfl, rfl, rfl, Or.inl rfl⟩
      (.cons ⟨rfl, rfl, rfl, rfl, Or.inl rfl⟩
        (.cons ⟨rfl, rfl, rfl, rfl, Or.inr ⟨rfl, by decide, by decide⟩⟩ .nil)))

end Consolidate
